import Mathlib

/-
  Verification of the room-manager backend (src/websocket_manager.py,
  src/main.py) against its natural-language specification.

  Shallow embedding conventions:
  - Python dicts become association lists `List (String × α)` with
    insert-or-replace updates (`updt`), so key order and uniqueness follow
    dict semantics on every reachable state.
  - Float coordinates/timestamps become `ℚ` in the state machine (their
    arithmetic there is exact), and `ℝ` in the ball-damping model, where
    `math.exp` is involved.
  - Nondeterministic inputs of the code (random colour, `time.time()`,
    the websocket handle, Redis responses) become explicit parameters.
  - `await` calls to the network or to Redis become `Effect` values in an
    effect list returned next to the new state; raising `RuntimeError`
    becomes an error result with the state returned unchanged.
-/

namespace GameBackend

/-- One player's entry of `room.players` (websocket_manager.py, lines 76-82):
`x`, `y`, a colour (the code stores the hex string of a random integer in
`[0, 0xFFFFFF]`; we keep the integer), `player_type` (the string "A" or "B"),
and `last_seen`. -/
structure Player where
  x : ℚ
  y : ℚ
  color : ℕ
  player_type : String
  last_seen : ℚ
deriving DecidableEq

/-- `room.ball` (websocket_manager.py, lines 259-265). -/
structure BallQ where
  x : ℚ
  y : ℚ
  vx : ℚ
  vy : ℚ
  ts : ℚ
deriving DecidableEq

/-- Messages handed to `_broadcast` and the Redis calls, in program order.
A broadcast effect records that `_broadcast` was invoked with that message
(the fan-out itself only reaches the connections present at that moment). -/
inductive Effect where
  | sendJoin (pid ptype : String)
  | sendLeave (pid : String)
  | sendState (payload : List (String × ℚ × ℚ × ℕ × String))
  | sendBall (x y vx vy ts : ℚ)
  | sendGameStarted
  | mirrorAddMember (pid : String)
  | mirrorSetPlayer (pid : String)
  | mirrorRemMember (pid : String)
  | mirrorDelPlayer (pid : String)
  | mirrorDelBall (pid : String)
  | mirrorSetBall
  | mirrorSetMeta
  | closeWs (ws : ℕ)
deriving DecidableEq

/-- `RoomState.__init__` (websocket_manager.py, lines 21-32).
`connections` maps player id to a websocket handle (modelled as ℕ),
`ballKeys` is the key set of `self.balls` (the code only ever pops from
that dict, never inserts, so the values are irrelevant), and
`stateTaskRunning` tracks whether `state_task` is a live task. -/
structure RoomState where
  connections : List (String × ℕ)
  players : List (String × Player)
  ballKeys : List String
  ball : Option BallQ
  worldWidth : Option ℚ
  worldHeight : Option ℚ
  gameStarted : Bool
  stateDirty : Bool
  stateTaskRunning : Bool
deriving DecidableEq

/-- A fresh `RoomState()`. -/
def initRoom : RoomState :=
  { connections := [], players := [], ballKeys := [], ball := none
  , worldWidth := none, worldHeight := none, gameStarted := false
  , stateDirty := false, stateTaskRunning := false }

/-- `self.room_capacity = 2` (websocket_manager.py, line 48). -/
def roomCapacity : ℕ := 2

/-- Outcome of `join`: the returned colour paired with the assigned role,
or the message of the raised `RuntimeError`. -/
inductive JoinResult where
  | ok (color : ℕ) (ptype : String)
  | err (msg : String)
deriving DecidableEq

/-- Dict assignment `d[k] = v`: replace the entry for `k`, else append. -/
def updt {α : Type} (k : String) (v : α) : List (String × α) → List (String × α)
  | [] => [(k, v)]
  | p :: rest => if p.1 = k then (k, v) :: rest else p :: updt k v rest

/-- The key list of an association list (dict key view). -/
def keysOf {α : Type} (l : List (String × α)) : List String :=
  l.map Prod.fst

/-- Number of players currently holding role "A". -/
def countA (l : List (String × Player)) : ℕ :=
  (l.filter (fun p => p.2.player_type == "A")).length

/-- Python truthiness of the optional float world bounds: `None` and `0.0`
are falsy (`if room.world_width and room.world_height`, line 69). -/
def truthy : Option ℚ → Bool
  | none => false
  | some q => q != 0

/-- Spawn position (websocket_manager.py, lines 69-75): with truthy bounds,
horizontally centred, at 5/6 of the height for "A" and 1/6 for "B";
otherwise the origin. -/
def spawnPos (s : RoomState) (ptype : String) : ℚ × ℚ :=
  if truthy s.worldWidth && truthy s.worldHeight then
    ((s.worldWidth.getD 0) / 2,
     (s.worldHeight.getD 0) * (if ptype = "A" then 5 / 6 else 1 / 6))
  else (0, 0)

/-- `join` (websocket_manager.py, lines 56-103). The colour and `now` are
the nondeterministic inputs drawn inside the lock. The role is "A" iff
`room.players` is empty (line 65); with the capacity check failing, the code
raises `RuntimeError("room_full")` before mutating anything. On success the
Redis member/player writes happen, then (after the lock) the `join`
broadcast, the dirty flag, and `_ensure_state_task`. The returned value
pairs the colour (the code's return value) with the assigned role (carried
by the join broadcast). -/
def joinRoom (s : RoomState) (pid : String) (ws color : ℕ) (now : ℚ) :
    JoinResult × RoomState × List Effect :=
  let ptype := if s.players.isEmpty then "A" else "B"
  if roomCapacity ≤ s.connections.length then
    (JoinResult.err "room_full", s, [])
  else
    let pos := spawnPos s ptype
    let player : Player :=
      { x := pos.1, y := pos.2, color := color, player_type := ptype, last_seen := now }
    (JoinResult.ok color ptype,
     { s with connections := updt pid ws s.connections
            , players := updt pid player s.players
            , stateDirty := true
            , stateTaskRunning := true },
     [Effect.mirrorAddMember pid, Effect.mirrorSetPlayer pid, Effect.sendJoin pid ptype])

/-- `leave` (websocket_manager.py, lines 128-166): pop the connection,
player and ball entry under the lock; outside the lock close the popped
websocket (if any), delete the mirror entries, broadcast `leave`, set the
dirty flag, ensure the state task, and cancel it when no connections
remain. -/
def leaveRoom (s : RoomState) (pid : String) : RoomState × List Effect :=
  let ws := s.connections.lookup pid
  let conns := s.connections.filter (fun p => p.1 != pid)
  let closeEff := match ws with
    | some w => [Effect.closeWs w]
    | none => []
  ({ s with connections := conns
          , players := s.players.filter (fun p => p.1 != pid)
          , ballKeys := s.ballKeys.filter (fun k => k != pid)
          , stateDirty := true
          , stateTaskRunning := !conns.isEmpty },
   closeEff ++ [Effect.mirrorRemMember pid, Effect.mirrorDelPlayer pid,
                Effect.mirrorDelBall pid, Effect.sendLeave pid])

/-- `touch` (websocket_manager.py, lines 168-179): refresh `last_seen` only
if the player is present, but issue the mirror `hset` of `last_seen`
unconditionally (line 177 sits outside the membership test). -/
def touchRoom (s : RoomState) (pid : String) (now : ℚ) : RoomState × List Effect :=
  ({ s with players := s.players.map (fun p =>
      if p.1 = pid then (p.1, { p.2 with last_seen := now }) else p) },
   [Effect.mirrorSetPlayer pid])

/-- `update_position` (websocket_manager.py, lines 181-206): early return
inside the lock when the player is absent (no mirror write, no dirty flag);
otherwise update x, y, `last_seen`, write the mirror, set the dirty flag and
ensure the state task. -/
def updatePosition (s : RoomState) (pid : String) (x y now : ℚ) :
    RoomState × List Effect :=
  match s.players.lookup pid with
  | none => (s, [])
  | some _ =>
    ({ s with players := s.players.map (fun p =>
        if p.1 = pid then (p.1, { p.2 with x := x, y := y, last_seen := now }) else p)
            , stateDirty := true
            , stateTaskRunning := true },
     [Effect.mirrorSetPlayer pid])

/-- The full-state snapshot `broadcast_state` builds under the lock
(websocket_manager.py, lines 213-223). -/
def stateSnapshot (s : RoomState) : List (String × ℚ × ℚ × ℕ × String) :=
  s.players.map (fun p => (p.1, p.2.x, p.2.y, p.2.color, p.2.player_type))

/-- `broadcast_state` (websocket_manager.py, lines 208-225). -/
def broadcastState (s : RoomState) : RoomState × List Effect :=
  (s, [Effect.sendState (stateSnapshot s)])

/-- One iteration of `_state_loop` after the sleep (websocket_manager.py,
lines 239-244): read the dirty flag, clear it, and call `broadcast_state`
only when it was set. -/
def stateLoopIter (s : RoomState) : RoomState × List Effect :=
  let dirty := s.stateDirty
  let cleared := { s with stateDirty := false }
  if dirty then broadcastState cleared else (cleared, [])

/-- `set_world` (websocket_manager.py, lines 346-350): unconditionally
store both bounds. -/
def setWorld (s : RoomState) (w h : ℚ) : RoomState :=
  { s with worldWidth := some w, worldHeight := some h }

/-- `start_game` (websocket_manager.py, lines 352-365). -/
def startGame (s : RoomState) : Bool × RoomState × List Effect :=
  if s.gameStarted then (false, s, [])
  else (true, { s with gameStarted := true },
        [Effect.mirrorSetMeta, Effect.sendGameStarted])

/-- The state/effect part of `record_ball` (websocket_manager.py, lines
258-277): store the ball and write the mirror under the lock, then
broadcast the `ball` message. The velocity components arrive here already
damped; the damping arithmetic itself is `recordBallVelocity` below, over
the reals. -/
def recordBallQ (s : RoomState) (x y vx vy ts : ℚ) : RoomState × List Effect :=
  ({ s with ball := some { x := x, y := y, vx := vx, vy := vy, ts := ts } },
   [Effect.mirrorSetBall, Effect.sendBall x y vx vy ts])

/-- The in-memory clearing done by `shutdown` (websocket_manager.py, lines
396-401): connections, players, ball, task handle and dirty flag are
cleared (`self.balls` is not). -/
def shutdownClear (s : RoomState) : RoomState :=
  { s with connections := [], players := [], ball := none
         , stateDirty := false, stateTaskRunning := false }

/-- Room states reachable from a fresh room through the manager's
operations on that room. -/
inductive Reachable : RoomState → Prop
  | init : Reachable initRoom
  | join (s : RoomState) (pid : String) (ws color : ℕ) (now : ℚ) :
      Reachable s → Reachable (joinRoom s pid ws color now).2.1
  | leave (s : RoomState) (pid : String) :
      Reachable s → Reachable (leaveRoom s pid).1
  | touch (s : RoomState) (pid : String) (now : ℚ) :
      Reachable s → Reachable (touchRoom s pid now).1
  | move (s : RoomState) (pid : String) (x y now : ℚ) :
      Reachable s → Reachable (updatePosition s pid x y now).1
  | world (s : RoomState) (w h : ℚ) :
      Reachable s → Reachable (setWorld s w h)
  | start (s : RoomState) :
      Reachable s → Reachable (startGame s).2.1
  | ball (s : RoomState) (x y vx vy ts : ℚ) :
      Reachable s → Reachable (recordBallQ s x y vx vy ts).1
  | bstate (s : RoomState) :
      Reachable s → Reachable (broadcastState s).1
  | loopIter (s : RoomState) :
      Reachable s → Reachable (stateLoopIter s).1
  | shutdown (s : RoomState) :
      Reachable s → Reachable (shutdownClear s)

/-- The room invariants of the data-model section: capacity bound, equal
key views of `connections` and `players`, and at most one role-"A"
holder. -/
def RoomInv (s : RoomState) : Prop :=
  s.connections.length ≤ roomCapacity
  ∧ keysOf s.connections = keysOf s.players
  ∧ countA s.players ≤ 1

/-! ## Manager-level registry (`self.rooms`) -/

/-- `self.rooms` of `WebSocketRoomManager` (websocket_manager.py, line 44). -/
structure Registry where
  rooms : List (String × RoomState)
deriving DecidableEq

/-- `_ensure_room` (websocket_manager.py, lines 51-54): get-or-create. -/
def ensureRoomM (reg : Registry) (rid : String) : Registry × RoomState :=
  match reg.rooms.lookup rid with
  | some r => (reg, r)
  | none => (⟨updt rid initRoom reg.rooms⟩, initRoom)

/-- Write a mutated room back into the registry (the Python code mutates
the `RoomState` object held in `self.rooms` in place). -/
def putRoom (reg : Registry) (rid : String) (r : RoomState) : Registry :=
  ⟨updt rid r reg.rooms⟩

/-- Manager-level `join`. -/
def joinM (reg : Registry) (rid pid : String) (ws color : ℕ) (now : ℚ) :
    Registry × JoinResult × List Effect :=
  let er := ensureRoomM reg rid
  let r := joinRoom er.2 pid ws color now
  (putRoom er.1 rid r.2.1, r.1, r.2.2)

/-- Manager-level `leave`. -/
def leaveM (reg : Registry) (rid pid : String) : Registry × List Effect :=
  let er := ensureRoomM reg rid
  let r := leaveRoom er.2 pid
  (putRoom er.1 rid r.1, r.2)

/-- Manager-level `touch`. -/
def touchM (reg : Registry) (rid pid : String) (now : ℚ) : Registry × List Effect :=
  let er := ensureRoomM reg rid
  let r := touchRoom er.2 pid now
  (putRoom er.1 rid r.1, r.2)

/-- Manager-level `update_position`. -/
def updatePositionM (reg : Registry) (rid pid : String) (x y now : ℚ) :
    Registry × List Effect :=
  let er := ensureRoomM reg rid
  let r := updatePosition er.2 pid x y now
  (putRoom er.1 rid r.1, r.2)

/-- Manager-level `record_ball` (state/effect part). -/
def recordBallM (reg : Registry) (rid : String) (x y vx vy ts : ℚ) :
    Registry × List Effect :=
  let er := ensureRoomM reg rid
  let r := recordBallQ er.2 x y vx vy ts
  (putRoom er.1 rid r.1, r.2)

/-- `_broadcast` registers the room (websocket_manager.py, line 282) and
only reads it; the registry effect is `_ensure_room` alone. -/
def broadcastM (reg : Registry) (rid : String) : Registry :=
  (ensureRoomM reg rid).1

/-- The local fallback branch of `get_player_count` (websocket_manager.py,
lines 121-122): `_ensure_room` then the local connection count. -/
def getPlayerCountLocal (reg : Registry) (rid : String) : Registry × ℕ :=
  match reg.rooms.lookup rid with
  | some r => (reg, r.connections.length)
  | none => (⟨updt rid initRoom reg.rooms⟩, 0)

/-- The heartbeat-freshness count over the mirror's member set
(websocket_manager.py, lines 110-118): a member is active when its
`last_seen` was readable and `now - last_seen ≤ kick_timeout`; an
unreadable or missing `last_seen` (modelled as `none`) is skipped. -/
def countActive (now kt : ℚ) (members : List (String × Option ℚ)) : ℕ :=
  (members.filter (fun m => match m.2 with
    | some ls => decide (now - ls ≤ kt)
    | none => false)).length

/-- `get_player_count` (websocket_manager.py, lines 105-122).
`mirrorMembers` is the outcome of `smembers`: `none` when the mirror call
raised, otherwise the member list with each member's readable `last_seen`.
With a non-empty member set the function returns the active count without
ever touching the local registry; only the mirror-failure and empty-set
paths fall back to `_ensure_room`. -/
def getPlayerCountM (reg : Registry) (rid : String) (now : ℚ)
    (mirrorMembers : Option (List (String × Option ℚ))) (kt : ℚ) :
    Registry × ℕ :=
  match mirrorMembers with
  | some members =>
    if members.isEmpty then getPlayerCountLocal reg rid
    else (reg, countActive now kt members)
  | none => getPlayerCountLocal reg rid

/-! ## Lock/IO event traces (concurrency discipline)

Each operation of `WebSocketRoomManager` is abstracted to the sequence of
lock acquisitions/releases, in-memory steps, mirror (Redis) calls and
network calls it performs, read off the source in program order. -/

inductive OpEvent where
  | acquire
  | release
  | memStep
  | mirrorCall
  | netCall
deriving DecidableEq

/-- Whether the trace performs a mirror or network call while at least one
lock is held. `d` is the current lock depth. -/
def ioUnderLockAux : ℕ → List OpEvent → Bool
  | _, [] => false
  | d, OpEvent.acquire :: rest => ioUnderLockAux (d + 1) rest
  | d, OpEvent.release :: rest => ioUnderLockAux (d - 1) rest
  | d, OpEvent.mirrorCall :: rest => decide (0 < d) || ioUnderLockAux d rest
  | d, OpEvent.netCall :: rest => decide (0 < d) || ioUnderLockAux d rest
  | d, OpEvent.memStep :: rest => ioUnderLockAux d rest

def ioUnderLock (t : List OpEvent) : Bool := ioUnderLockAux 0 t

/-- Same, but counting only network calls. -/
def netUnderLockAux : ℕ → List OpEvent → Bool
  | _, [] => false
  | d, OpEvent.acquire :: rest => netUnderLockAux (d + 1) rest
  | d, OpEvent.release :: rest => netUnderLockAux (d - 1) rest
  | d, OpEvent.mirrorCall :: rest => netUnderLockAux d rest
  | d, OpEvent.netCall :: rest => decide (0 < d) || netUnderLockAux d rest
  | d, OpEvent.memStep :: rest => netUnderLockAux d rest

def netUnderLock (t : List OpEvent) : Bool := netUnderLockAux 0 t

/-- `join` (lines 63-101): lock; assign colour/role, capacity check, record
connection and player; `sadd` and `hset` still inside the `async with`
block (lines 86-90); release; `_broadcast` (line 95); lock, dirty flag,
release (97-98); `_ensure_state_task` takes the lock again (229-232). -/
def joinTrace : List OpEvent :=
  [OpEvent.acquire, OpEvent.memStep, OpEvent.mirrorCall, OpEvent.mirrorCall,
   OpEvent.release, OpEvent.netCall, OpEvent.acquire, OpEvent.memStep,
   OpEvent.release, OpEvent.acquire, OpEvent.memStep, OpEvent.release]

/-- `leave` (lines 131-166), with a present member: lock, pop, release;
close the websocket; three mirror deletions; broadcast; lock/dirty/release;
ensure-task lock; cancel-check lock. -/
def leaveTrace : List OpEvent :=
  [OpEvent.acquire, OpEvent.memStep, OpEvent.release, OpEvent.netCall,
   OpEvent.mirrorCall, OpEvent.mirrorCall, OpEvent.mirrorCall, OpEvent.netCall,
   OpEvent.acquire, OpEvent.memStep, OpEvent.release,
   OpEvent.acquire, OpEvent.memStep, OpEvent.release,
   OpEvent.acquire, OpEvent.memStep, OpEvent.release]

/-- `touch` (lines 171-179): lock, refresh, release, mirror `hset`. -/
def touchTrace : List OpEvent :=
  [OpEvent.acquire, OpEvent.memStep, OpEvent.release, OpEvent.mirrorCall]

/-- `update_position` (lines 186-206), member present: the mirror `hset`
(lines 194-199) sits inside the `async with room.lock` block. -/
def updatePositionTrace : List OpEvent :=
  [OpEvent.acquire, OpEvent.memStep, OpEvent.mirrorCall, OpEvent.release,
   OpEvent.acquire, OpEvent.memStep, OpEvent.release,
   OpEvent.acquire, OpEvent.memStep, OpEvent.release]

/-- `record_ball` (lines 251-277): the mirror `hset` (lines 266-272) sits
inside the lock; the `ball` broadcast follows outside. -/
def recordBallTrace : List OpEvent :=
  [OpEvent.memStep, OpEvent.acquire, OpEvent.memStep, OpEvent.mirrorCall,
   OpEvent.release, OpEvent.netCall]

/-- `broadcast_state` (lines 211-225): snapshot under the lock, then
`_broadcast` (which itself locks to copy the connections, then sends). -/
def broadcastStateTrace : List OpEvent :=
  [OpEvent.acquire, OpEvent.memStep, OpEvent.release,
   OpEvent.acquire, OpEvent.memStep, OpEvent.release, OpEvent.netCall]

/-- `_broadcast` (lines 282-293). -/
def broadcastTrace : List OpEvent :=
  [OpEvent.acquire, OpEvent.memStep, OpEvent.release, OpEvent.netCall]

/-- `start_game` (lines 353-365), first call: the meta `hset` (line 360)
sits inside the lock; the `game_started` broadcast follows outside. -/
def startGameTrace : List OpEvent :=
  [OpEvent.acquire, OpEvent.memStep, OpEvent.mirrorCall, OpEvent.release,
   OpEvent.netCall]

/-- The mutator/broadcast operations of the manager, as traces. -/
def allOpTraces : List (List OpEvent) :=
  [joinTrace, leaveTrace, touchTrace, updatePositionTrace, recordBallTrace,
   broadcastStateTrace, broadcastTrace, startGameTrace]

/-! ## Connection gateway (src/main.py) -/

/-- Python's `str.strip()`: drop whitespace from both ends. -/
def stripChars (l : List Char) : List Char :=
  ((l.dropWhile Char.isWhitespace).reverse.dropWhile Char.isWhitespace).reverse

/-- `auth.lower().startswith("bearer ")` at the character level. -/
def lowerBearerPrefix (a : String) : Bool :=
  (a.toList.map Char.toLower).take 7 == "bearer ".toList

/-- `_extract_token` (main.py, lines 131-141): the `Authorization` header
takes priority when it is truthy (non-empty) and starts
(case-insensitively) with "bearer "; `auth.split(" ", 1)[1].strip()` is the
text after the first space, stripped — the prefix match puts that first
space at index 6, so it is `auth[7:].strip()`. Otherwise a non-empty
`token` query parameter is used; else no token. -/
def extractToken (auth tokenParam : Option String) : Option String :=
  match auth with
  | some a =>
    if a != "" && lowerBearerPrefix a then
      some (String.mk (stripChars (a.toList.drop 7)))
    else match tokenParam with
      | some t => if t != "" then some t else none
      | none => none
  | none =>
    match tokenParam with
    | some t => if t != "" then some t else none
    | none => none

/-- Observable actions of `websocket_endpoint` up to entering the message
loop. `joinCall` marks the call into `manager.join` (the only place a
`join` event can be broadcast from). -/
inductive GwAction where
  | sendAuthFalse
  | close (code : ℕ)
  | closeNoCode
  | joinCall (uid : ℕ)
  | enterLoop (uid : ℕ)
deriving DecidableEq

/-- `websocket_endpoint` (main.py, lines 154-192) after a successful
`accept`, up to the message loop: a missing token and an undecodable token
both send one `{type: auth, message: "false"}` frame and close with code
4401; otherwise `manager.join` is attempted, a failure closes the channel
with no further output, and success enters the loop. `decode` embeds
`decode_token_user_id` and `joinOk` whether `manager.join` succeeded. -/
def gatewaySession (auth q : Option String) (decode : String → Option ℕ)
    (joinOk : Bool) : List GwAction :=
  match extractToken auth q with
  | none => [GwAction.sendAuthFalse, GwAction.close 4401]
  | some tok =>
    match decode tok with
    | none => [GwAction.sendAuthFalse, GwAction.close 4401]
    | some uid =>
      if joinOk then [GwAction.joinCall uid, GwAction.enterLoop uid]
      else [GwAction.joinCall uid, GwAction.closeNoCode]

/-! ## Ball damping over the reals (record_ball, lines 251-257) -/

/-- `self.ball_damping = 0.03` (websocket_manager.py, line 47). -/
noncomputable def ballDamping : ℝ := 3 / 100

/-- The velocity stored by `record_ball` (websocket_manager.py, lines
251-257): `dt = ts - prev_ts` when a previous sample exists (else 0),
`factor = exp(-damping * dt)` when `dt > 0` (else 1), and the input
velocity is scaled by `factor`. -/
noncomputable def recordBallVelocity (prevTs : Option ℝ) (ts vx vy : ℝ) :
    ℝ × ℝ :=
  let dt : ℝ := match prevTs with
    | some p => ts - p
    | none => 0
  let factor : ℝ := if 0 < dt then Real.exp (-ballDamping * dt) else 1
  (vx * factor, vy * factor)

/-- Velocity magnitude. -/
noncomputable def speed (v : ℝ × ℝ) : ℝ := Real.sqrt (v.1 ^ 2 + v.2 ^ 2)

/-! ## Concrete example states -/

/-- Room after `join("p1")` into a fresh room. -/
def exS1 : RoomState := (joinRoom initRoom "p1" 10 1 0).2.1

/-- Room after `join("p1")`, `join("p2")`. -/
def exS2 : RoomState := (joinRoom exS1 "p2" 11 2 0).2.1

/-- Room after `join("p1")`, `join("p2")`, `leave("p1")`: the sole
remaining player "p2" holds role "B". -/
def exS3 : RoomState := (leaveRoom exS2 "p1").1

/-- Room with the world bounds already set to (100, 100). -/
def exWorld1 : RoomState := setWorld initRoom 100 100

/-- A room whose dirty flag is set. -/
def exDirty : RoomState := { initRoom with stateDirty := true }

/-! ## Association-list lemmas -/

theorem length_updt_le {α : Type} (k : String) (v : α) (l : List (String × α)) :
    (updt k v l).length ≤ l.length + 1 := by
  induction l with
  | nil => simp [updt]
  | cons p rest ih =>
    by_cases h : p.1 = k
    · simp [updt, h]
    · simp only [updt, if_neg h, List.length_cons]
      omega

theorem keysOf_updt_congr {α β : Type} (k : String) (v : α) (w : β) :
    ∀ (l : List (String × α)) (m : List (String × β)),
      keysOf l = keysOf m → keysOf (updt k v l) = keysOf (updt k w m) := by
  intro l
  induction l with
  | nil =>
    intro m h
    cases m with
    | nil => simp [updt, keysOf]
    | cons q u => simp [keysOf] at h
  | cons p t ih =>
    intro m h
    cases m with
    | nil => simp [keysOf] at h
    | cons q u =>
      simp only [keysOf, List.map_cons, List.cons.injEq] at h
      obtain ⟨h1, h2⟩ := h
      by_cases hk : p.1 = k
      · have hq : q.1 = k := h1 ▸ hk
        simp [updt, hk, hq, keysOf, h2]
      · have hq : ¬ q.1 = k := fun hc => hk (h1 ▸ hc)
        simp only [updt, if_neg hk, if_neg hq, keysOf, List.map_cons,
          List.cons.injEq]
        exact ⟨h1, ih u h2⟩

theorem keysOf_filter_ne {α : Type} (k : String) (l : List (String × α)) :
    keysOf (l.filter (fun p => p.1 != k))
      = (keysOf l).filter (fun x => x != k) := by
  induction l with
  | nil => rfl
  | cons p t ih =>
    simp only [keysOf] at ih
    by_cases h : p.1 = k
    · simp [keysOf, List.filter_cons, h, ih]
    · simp [keysOf, List.filter_cons, h, ih]

theorem keysOf_map_fst {α : Type} (g : String × α → String × α)
    (hg : ∀ p, (g p).1 = p.1) (l : List (String × α)) :
    keysOf (l.map g) = keysOf l := by
  induction l with
  | nil => rfl
  | cons p t ih =>
    simp only [keysOf, List.map_cons, List.cons.injEq] at ih ⊢
    exact ⟨hg p, ih⟩

theorem countA_cons (p : String × Player) (t : List (String × Player)) :
    countA (p :: t)
      = (if p.2.player_type = "A" then 1 else 0) + countA t := by
  by_cases h : p.2.player_type = "A" <;>
    simp [countA, List.filter_cons, h, Nat.add_comm]

theorem countA_updt_le (k : String) (v : Player) (hv : v.player_type ≠ "A") :
    ∀ l : List (String × Player), countA (updt k v l) ≤ countA l := by
  intro l
  induction l with
  | nil => simp [updt, countA, List.filter_cons, hv]
  | cons p t ih =>
    by_cases h : p.1 = k
    · simp only [updt, if_pos h, countA_cons, if_neg hv]
      omega
    · simp only [updt, if_neg h, countA_cons]
      omega

theorem countA_filter_le (q : String × Player → Bool)
    (l : List (String × Player)) : countA (l.filter q) ≤ countA l := by
  have h : List.Sublist
      ((l.filter q).filter (fun p => p.2.player_type == "A"))
      (l.filter (fun p => p.2.player_type == "A")) :=
    (List.filter_sublist l).filter _
  simpa [countA] using h.length_le

theorem countA_map (g : String × Player → String × Player)
    (hg : ∀ p, ((g p).2).player_type = p.2.player_type)
    (l : List (String × Player)) : countA (l.map g) = countA l := by
  induction l with
  | nil => rfl
  | cons p t ih => simp [List.map_cons, countA_cons, hg p, ih]

theorem lookup_none_nmem {α : Type} (k : String) :
    ∀ l : List (String × α), l.lookup k = none → ∀ p ∈ l, p.1 ≠ k := by
  intro l
  induction l with
  | nil => simp
  | cons q t ih =>
    intro h p hp
    obtain ⟨qk, qv⟩ := q
    rcases hbeq : (k == qk) with _ | _
    · rw [List.lookup_cons, hbeq] at h
      rcases List.mem_cons.mp hp with rfl | hp'
      · simpa using fun he : qk = k => by simp [he] at hbeq
      · exact ih h p hp'
    · rw [List.lookup_cons, hbeq] at h
      exact absurd h (by simp)

theorem filter_ne_of_absent {α : Type} (k : String) (l : List (String × α))
    (h : ∀ p ∈ l, p.1 ≠ k) : l.filter (fun p => p.1 != k) = l :=
  List.filter_eq_self.mpr (fun p hp => by simpa using h p hp)

theorem map_eq_self_of {α : Type} (f : α → α) (l : List α)
    (h : ∀ a ∈ l, f a = a) : l.map f = l := by
  induction l with
  | nil => rfl
  | cons a t ih =>
    simp only [List.map_cons, List.cons.injEq]
    exact ⟨h a (List.mem_cons_self a t),
           ih (fun b hb => h b (List.mem_cons_of_mem a hb))⟩

theorem mem_keysOf_updt_self {α : Type} (k : String) (v : α) :
    ∀ l : List (String × α), k ∈ keysOf (updt k v l) := by
  intro l
  induction l with
  | nil => simp [updt, keysOf]
  | cons p t ih =>
    by_cases h : p.1 = k
    · simp [updt, h, keysOf]
    · simp only [updt, if_neg h, keysOf, List.map_cons, List.mem_cons]
      exact Or.inr ih

theorem mem_keysOf_updt_mono {α : Type} (k : String) (v : α) (a : String) :
    ∀ l : List (String × α), a ∈ keysOf l → a ∈ keysOf (updt k v l) := by
  intro l
  induction l with
  | nil => simp [keysOf]
  | cons p t ih =>
    intro ha
    by_cases h : p.1 = k
    · simp only [keysOf, List.map_cons, List.mem_cons] at ha
      simp only [updt, if_pos h, keysOf, List.map_cons, List.mem_cons]
      rcases ha with rfl | ha
      · exact Or.inl h
      · exact Or.inr ha
    · simp only [keysOf, List.map_cons, List.mem_cons] at ha
      simp only [updt, if_neg h, keysOf, List.map_cons, List.mem_cons]
      rcases ha with rfl | ha
      · exact Or.inl rfl
      · exact Or.inr (ih ha)

theorem lookup_some_mem_keysOf {α : Type} (k : String) (v : α) :
    ∀ l : List (String × α), l.lookup k = some v → k ∈ keysOf l := by
  intro l
  induction l with
  | nil => simp [List.lookup]
  | cons q t ih =>
    intro h
    obtain ⟨qk, qv⟩ := q
    rcases hbeq : (k == qk) with _ | _
    · rw [List.lookup_cons, hbeq] at h
      simp only [keysOf, List.map_cons, List.mem_cons]
      exact Or.inr (ih h)
    · simp only [keysOf, List.map_cons, List.mem_cons]
      exact Or.inl (by simpa using hbeq)

/-! ## Preservation of the room invariant -/

theorem inv_init : RoomInv initRoom :=
  ⟨by simp [initRoom, roomCapacity], rfl, by simp [initRoom, countA]⟩

theorem inv_join (s : RoomState) (hinv : RoomInv s) (pid : String)
    (ws color : ℕ) (now : ℚ) : RoomInv (joinRoom s pid ws color now).2.1 := by
  obtain ⟨h1, h2, h3⟩ := hinv
  by_cases hc : roomCapacity ≤ s.connections.length
  · simpa [joinRoom, hc] using ⟨h1, h2, h3⟩
  · simp only [joinRoom, if_neg hc]
    refine ⟨?_, ?_, ?_⟩
    · have hlen := length_updt_le pid ws s.connections
      simp only [roomCapacity] at hc ⊢
      omega
    · exact keysOf_updt_congr pid ws _ s.connections s.players h2
    · by_cases he : s.players.isEmpty
      · have hnil : s.players = [] := by
          simpa using he
        simp [hnil, updt, countA, List.filter_cons, he]
      · refine le_trans (countA_updt_le pid _ ?_ s.players) h3
        simp [he]

theorem inv_leave (s : RoomState) (hinv : RoomInv s) (pid : String) :
    RoomInv (leaveRoom s pid).1 := by
  obtain ⟨h1, h2, h3⟩ := hinv
  refine ⟨?_, ?_, ?_⟩
  · exact le_trans (List.length_filter_le _ _) h1
  · show keysOf (s.connections.filter _) = keysOf (s.players.filter _)
    rw [keysOf_filter_ne, keysOf_filter_ne, h2]
  · exact le_trans (countA_filter_le _ _) h3

theorem inv_touch (s : RoomState) (hinv : RoomInv s) (pid : String)
    (now : ℚ) : RoomInv (touchRoom s pid now).1 := by
  obtain ⟨h1, h2, h3⟩ := hinv
  refine ⟨h1, ?_, ?_⟩
  · show keysOf s.connections = keysOf (s.players.map _)
    rw [keysOf_map_fst _ (fun p => by split <;> rfl)]
    exact h2
  · show countA (s.players.map _) ≤ 1
    rw [countA_map _ (fun p => by split <;> rfl)]
    exact h3

theorem inv_move (s : RoomState) (hinv : RoomInv s) (pid : String)
    (x y now : ℚ) : RoomInv (updatePosition s pid x y now).1 := by
  obtain ⟨h1, h2, h3⟩ := hinv
  cases hl : s.players.lookup pid with
  | none => simpa [updatePosition, hl] using ⟨h1, h2, h3⟩
  | some v =>
    simp only [updatePosition, hl]
    refine ⟨h1, ?_, ?_⟩
    · show keysOf s.connections = keysOf (s.players.map _)
      rw [keysOf_map_fst _ (fun p => by split <;> rfl)]
      exact h2
    · show countA (s.players.map _) ≤ 1
      rw [countA_map _ (fun p => by split <;> rfl)]
      exact h3

theorem inv_world (s : RoomState) (hinv : RoomInv s) (w hq : ℚ) :
    RoomInv (setWorld s w hq) := hinv

theorem inv_start (s : RoomState) (hinv : RoomInv s) :
    RoomInv (startGame s).2.1 := by
  by_cases hg : s.gameStarted <;> simp only [startGame, hg] <;>
    simpa using hinv

theorem inv_ball (s : RoomState) (hinv : RoomInv s) (x y vx vy ts : ℚ) :
    RoomInv (recordBallQ s x y vx vy ts).1 := hinv

theorem inv_bstate (s : RoomState) (hinv : RoomInv s) :
    RoomInv (broadcastState s).1 := hinv

theorem inv_loopIter (s : RoomState) (hinv : RoomInv s) :
    RoomInv (stateLoopIter s).1 := by
  by_cases hd : s.stateDirty <;> simp only [stateLoopIter, broadcastState, hd] <;>
    simpa using hinv

theorem inv_shutdown (s : RoomState) : RoomInv (shutdownClear s) :=
  ⟨by simp [shutdownClear, roomCapacity], rfl, by simp [shutdownClear, countA]⟩

/-- Every reachable room state satisfies the room invariant. -/
theorem reachable_inv (s : RoomState) (h : Reachable s) : RoomInv s := by
  induction h with
  | init => exact inv_init
  | join s pid ws color now _ ih => exact inv_join s ih pid ws color now
  | leave s pid _ ih => exact inv_leave s ih pid
  | touch s pid now _ ih => exact inv_touch s ih pid now
  | move s pid x y now _ ih => exact inv_move s ih pid x y now
  | world s w hq _ ih => exact inv_world s ih w hq
  | start s _ ih => exact inv_start s ih
  | ball s x y vx vy ts _ ih => exact inv_ball s ih x y vx vy ts
  | bstate s _ ih => exact inv_bstate s ih
  | loopIter s _ ih => exact inv_loopIter s ih
  | shutdown s _ _ => exact inv_shutdown s

/-! ## Reachability of the example states -/

theorem reach_exS1 : Reachable exS1 :=
  Reachable.join initRoom "p1" 10 1 0 Reachable.init

theorem reach_exS2 : Reachable exS2 :=
  Reachable.join exS1 "p2" 11 2 0 reach_exS1

/-! ## Claims -/

/-- C1: in every reachable room state the number of connections is at most
the capacity (2) and the key set of `connections` equals the key set of
`players`; a `join` attempted when the room already holds capacity-many
connections fails with the room-full error and returns the state unchanged
(so membership, positions and roles are untouched). -/
theorem C1_capacity_and_membership (s : RoomState) (h : Reachable s) :
    s.connections.length ≤ roomCapacity
    ∧ (∀ k, k ∈ keysOf s.connections ↔ k ∈ keysOf s.players)
    ∧ (roomCapacity ≤ s.connections.length →
        ∀ pid ws color now,
          (joinRoom s pid ws color now).1 = JoinResult.err "room_full"
          ∧ (joinRoom s pid ws color now).2.1 = s) := by
  obtain ⟨h1, h2, _⟩ := reachable_inv s h
  refine ⟨h1, fun k => by rw [h2], fun hfull pid ws color now => ?_⟩
  constructor <;> simp [joinRoom, hfull]

/-- Witness for C1 at the concrete full room `exS2`: the third join is
rejected with the room kept unchanged. -/
theorem C1_capacity_and_membership_witness :
    exS2.connections.length ≤ roomCapacity
    ∧ ("p1" ∈ keysOf exS2.connections ↔ "p1" ∈ keysOf exS2.players)
    ∧ ((joinRoom exS2 "p3" 99 9 0).1 = JoinResult.err "room_full"
       ∧ (joinRoom exS2 "p3" 99 9 0).2.1 = exS2) :=
  ⟨(C1_capacity_and_membership exS2 reach_exS2).1,
   (C1_capacity_and_membership exS2 reach_exS2).2.1 "p1",
   (C1_capacity_and_membership exS2 reach_exS2).2.2 (by decide) "p3" 99 9 0⟩

/-- C2 counterexample: after `join p1`, `join p2`, `leave p1`, no player in
the room holds role "A" (the sole member "p2" holds "B"), yet the next
successful join of "p3" is assigned "B", not "A" — and the room then holds
two players with role "B". This refutes both "role A if no current player
holds A" and "at most one player holds role B". -/
theorem C2_counterexample :
    (exS3.players.all (fun p => p.2.player_type != "A")) = true
    ∧ (joinRoom exS3 "p3" 12 3 0).1 = JoinResult.ok 3 "B"
    ∧ ((joinRoom exS3 "p3" 12 3 0).2.1.players.filter
        (fun p => p.2.player_type == "B")).length = 2 :=
  ⟨by decide, by decide, by decide⟩

/-- C2 (amended): a successful join assigns role "A" exactly when the
room's player set is empty at join time, and "B" otherwise; consequently at
most one player holds role "A" at any time in a reachable room, and the
first joiner into an empty room is always assigned "A". (When the sole
remaining player holds "B", a new joiner is still assigned "B", so two
players can hold "B" simultaneously.) -/
theorem C2_role_assignment (s : RoomState) (h : Reachable s) (pid : String)
    (ws color : ℕ) (now : ℚ) :
    countA s.players ≤ 1
    ∧ (∀ c pt, (joinRoom s pid ws color now).1 = JoinResult.ok c pt →
        pt = if s.players.isEmpty then "A" else "B") := by
  refine ⟨(reachable_inv s h).2.2, fun c pt hok => ?_⟩
  by_cases hc : roomCapacity ≤ s.connections.length
  · simp [joinRoom, hc] at hok
  · simp only [joinRoom, if_neg hc] at hok
    injection hok with h1 h2
    exact h2.symm

/-- Witness for C2 (amended): the first joiner into a fresh room gets
role "A". -/
theorem C2_role_assignment_witness :
    countA initRoom.players ≤ 1
    ∧ "A" = (if initRoom.players.isEmpty then "A" else "B") :=
  ⟨(C2_role_assignment initRoom Reachable.init "p1" 0 5 0).1,
   (C2_role_assignment initRoom Reachable.init "p1" 0 5 0).2 5 "A" (by decide)⟩

/-- C4 counterexample: with "p1" absent from a fresh room, `touch` still
issues a mirror write of the player's `last_seen`, and `leave` still
broadcasts a `leave` event — contradicting "no observable effect (no
broadcast, no mirror write)". -/
theorem C4_counterexample :
    initRoom.players.lookup "p1" = none
    ∧ (touchRoom initRoom "p1" 0).2 = [Effect.mirrorSetPlayer "p1"]
    ∧ Effect.sendLeave "p1" ∈ (leaveRoom initRoom "p1").2 :=
  ⟨by decide, by decide, by decide⟩

/-- C4 (amended): for a player id that is not a member of the room,
`update_position` is a complete no-op (state unchanged, no effects);
`touch` and `leave` raise no error and leave membership (connections and
players) unchanged, but `touch` still writes the player's `last_seen` to
the mirror, and `leave` still issues its three mirror deletions and
broadcasts a `leave` event. -/
theorem C4_absent_member (s : RoomState) (pid : String) (x y now : ℚ)
    (hp : s.players.lookup pid = none)
    (hc : s.connections.lookup pid = none) :
    updatePosition s pid x y now = (s, [])
    ∧ (touchRoom s pid now).1 = s
    ∧ (touchRoom s pid now).2 = [Effect.mirrorSetPlayer pid]
    ∧ (leaveRoom s pid).1.connections = s.connections
    ∧ (leaveRoom s pid).1.players = s.players
    ∧ (leaveRoom s pid).2
        = [Effect.mirrorRemMember pid, Effect.mirrorDelPlayer pid,
           Effect.mirrorDelBall pid, Effect.sendLeave pid] := by
  have hpm := lookup_none_nmem pid s.players hp
  have hcm := lookup_none_nmem pid s.connections hc
  refine ⟨?_, ?_, rfl, ?_, ?_, ?_⟩
  · simp [updatePosition, hp]
  · simp only [touchRoom]
    rw [map_eq_self_of _ _ (fun p hp2 => if_neg (hpm p hp2))]
  · simp only [leaveRoom]
    exact filter_ne_of_absent pid s.connections hcm
  · simp only [leaveRoom]
    exact filter_ne_of_absent pid s.players hpm
  · simp [leaveRoom, hc]

/-- Witness for C4 (amended) at a fresh room and the absent id "p9". -/
theorem C4_absent_member_witness :
    updatePosition initRoom "p9" 1 2 3 = (initRoom, [])
    ∧ (touchRoom initRoom "p9" 3).1 = initRoom
    ∧ (touchRoom initRoom "p9" 3).2 = [Effect.mirrorSetPlayer "p9"]
    ∧ (leaveRoom initRoom "p9").1.connections = initRoom.connections
    ∧ (leaveRoom initRoom "p9").1.players = initRoom.players
    ∧ (leaveRoom initRoom "p9").2
        = [Effect.mirrorRemMember "p9", Effect.mirrorDelPlayer "p9",
           Effect.mirrorDelBall "p9", Effect.sendLeave "p9"] :=
  C4_absent_member initRoom "p9" 1 2 3 (by decide) (by decide)

/-- C5 counterexample: with the bounds already set to (100, 100), a
subsequent `set_world(200, 50)` does not leave them unchanged — it
overwrites them. -/
theorem C5_counterexample :
    exWorld1.worldWidth = some 100
    ∧ exWorld1.worldHeight = some 100
    ∧ (setWorld exWorld1 200 50).worldWidth ≠ exWorld1.worldWidth
    ∧ (setWorld exWorld1 200 50).worldWidth = some 200
    ∧ (setWorld exWorld1 200 50).worldHeight = some 50 :=
  ⟨by decide, by decide, by decide, by decide, by decide⟩

/-- C5 (amended): `set_world` unconditionally stores its arguments as the
room's bounds; a repeated call with the same arguments is idempotent, but a
call with different arguments overwrites bounds that were already set. -/
theorem C5_set_world (s : RoomState) (w hq : ℚ) :
    (setWorld s w hq).worldWidth = some w
    ∧ (setWorld s w hq).worldHeight = some hq
    ∧ setWorld (setWorld s w hq) w hq = setWorld s w hq :=
  ⟨rfl, rfl, rfl⟩

/-- C7: `start_game` sets the started flag exactly once: a call on a room
with the flag unset returns true, sets the flag and broadcasts exactly one
`game_started` event; a call on a room with the flag set returns false,
broadcasts nothing and leaves the state unchanged; and the call immediately
following any `start_game` always returns false. -/
theorem C7_start_game (s : RoomState) :
    (s.gameStarted = false →
      (startGame s).1 = true
      ∧ (startGame s).2.1.gameStarted = true
      ∧ ((startGame s).2.2.count Effect.sendGameStarted) = 1)
    ∧ (s.gameStarted = true →
      (startGame s).1 = false
      ∧ (startGame s).2.1 = s
      ∧ (startGame s).2.2 = [])
    ∧ (startGame (startGame s).2.1).1 = false := by
  refine ⟨fun hf => ?_, fun ht => ?_, ?_⟩
  · simp [startGame, hf, List.count_cons]
  · simp [startGame, ht]
  · by_cases hg : s.gameStarted <;> simp [startGame, hg]

/-- Witness for C7 at a fresh room: the first call causes the transition
and broadcasts one `game_started`. -/
theorem C7_start_game_witness :
    (startGame initRoom).1 = true
    ∧ (startGame initRoom).2.1.gameStarted = true
    ∧ ((startGame initRoom).2.2.count Effect.sendGameStarted) = 1 :=
  (C7_start_game initRoom).1 rfl

/-- C8: one iteration of the per-room coalescer loop broadcasts something
iff the dirty flag was set, in which case it broadcasts exactly the full
state snapshot (player id, x, y, colour, role for each player) and clears
the flag in the same step; when the flag is unset nothing is broadcast, and
the flag is always false afterwards. -/
theorem C8_coalescer_gate (s : RoomState) :
    ((stateLoopIter s).2 ≠ [] ↔ s.stateDirty = true)
    ∧ (s.stateDirty = true →
        (stateLoopIter s).2 = [Effect.sendState (stateSnapshot s)])
    ∧ (s.stateDirty = false → (stateLoopIter s).2 = [])
    ∧ (stateLoopIter s).1.stateDirty = false := by
  refine ⟨?_, fun ht => ?_, fun hf => ?_, ?_⟩
  · by_cases hd : s.stateDirty <;> simp [stateLoopIter, broadcastState, hd]
  · simp [stateLoopIter, broadcastState, ht, stateSnapshot]
  · simp [stateLoopIter, hf]
  · by_cases hd : s.stateDirty <;> simp [stateLoopIter, broadcastState, hd]

/-- Witness for C8 at a dirty room: the iteration flushes the snapshot. -/
theorem C8_coalescer_gate_witness :
    (stateLoopIter exDirty).2 = [Effect.sendState (stateSnapshot exDirty)]
    ∧ (stateLoopIter exDirty).1.stateDirty = false :=
  ⟨(C8_coalescer_gate exDirty).2.1 rfl, (C8_coalescer_gate exDirty).2.2.2⟩

/-- C9 counterexample: it is not the case that every operation keeps
mirror/network calls outside the room lock — `join` performs its two
mirror writes (lines 86-90) while still inside the `async with room.lock`
block. -/
theorem C9_counterexample :
    (allOpTraces.all (fun t => !(ioUnderLock t))) = false
    ∧ joinTrace ∈ allOpTraces
    ∧ ioUnderLock joinTrace = true :=
  ⟨by decide, by decide, by decide⟩

/-- C9 (amended): network I/O (broadcasts, websocket closes) is never
performed while holding the room lock, and `leave`, `touch`,
`broadcast_state` and `_broadcast` keep all their I/O outside the lock; but
`join`, `update_position`, `record_ball` and `start_game` each perform
mirror (Redis) writes while holding the room lock. -/
theorem C9_lock_discipline :
    (allOpTraces.all (fun t => !(netUnderLock t))) = true
    ∧ ioUnderLock leaveTrace = false
    ∧ ioUnderLock touchTrace = false
    ∧ ioUnderLock broadcastStateTrace = false
    ∧ ioUnderLock broadcastTrace = false
    ∧ ioUnderLock joinTrace = true
    ∧ ioUnderLock updatePositionTrace = true
    ∧ ioUnderLock recordBallTrace = true
    ∧ ioUnderLock startGameTrace = true := by decide

/-! ## Registry lemmas for C10 -/

theorem mem_keysOf_putRoom_self (reg : Registry) (rid : String)
    (r : RoomState) : rid ∈ keysOf (putRoom reg rid r).rooms :=
  mem_keysOf_updt_self rid r reg.rooms

theorem mem_keysOf_putRoom_mono (reg : Registry) (rid : String)
    (r : RoomState) (a : String) (ha : a ∈ keysOf reg.rooms) :
    a ∈ keysOf (putRoom reg rid r).rooms :=
  mem_keysOf_updt_mono rid r a reg.rooms ha

theorem mem_keysOf_ensure_self (reg : Registry) (rid : String) :
    rid ∈ keysOf (ensureRoomM reg rid).1.rooms := by
  cases hl : reg.rooms.lookup rid with
  | some r =>
    simp only [ensureRoomM, hl]
    exact lookup_some_mem_keysOf rid r reg.rooms hl
  | none =>
    simp only [ensureRoomM, hl]
    exact mem_keysOf_updt_self rid initRoom reg.rooms

theorem mem_keysOf_ensure_mono (reg : Registry) (rid : String) (a : String)
    (ha : a ∈ keysOf reg.rooms) :
    a ∈ keysOf (ensureRoomM reg rid).1.rooms := by
  cases hl : reg.rooms.lookup rid with
  | some r => simpa [ensureRoomM, hl] using ha
  | none =>
    simp only [ensureRoomM, hl]
    exact mem_keysOf_updt_mono rid initRoom a reg.rooms ha

theorem mem_keysOf_local_self (reg : Registry) (rid : String) :
    rid ∈ keysOf (getPlayerCountLocal reg rid).1.rooms := by
  cases hl : reg.rooms.lookup rid with
  | some r =>
    simp only [getPlayerCountLocal, hl]
    exact lookup_some_mem_keysOf rid r reg.rooms hl
  | none =>
    simp only [getPlayerCountLocal, hl]
    exact mem_keysOf_updt_self rid initRoom reg.rooms

theorem mem_keysOf_local_mono (reg : Registry) (rid : String) (a : String)
    (ha : a ∈ keysOf reg.rooms) :
    a ∈ keysOf (getPlayerCountLocal reg rid).1.rooms := by
  cases hl : reg.rooms.lookup rid with
  | some r => simpa [getPlayerCountLocal, hl] using ha
  | none =>
    simp only [getPlayerCountLocal, hl]
    exact mem_keysOf_updt_mono rid initRoom a reg.rooms ha

/-- C10 counterexample: calling `get_player_count` on a never-seen room id
while the mirror reports a non-empty member set returns the mirror count
(here 1) and does not register the room locally — the registry stays
empty. This refutes "every manager operation that references a room id ...
creates an empty RoomState for that id in the local registry". -/
theorem C10_counterexample :
    (getPlayerCountM ⟨[]⟩ "r1" 0 (some [("p1", some 0)]) 60).1
      = (⟨[]⟩ : Registry)
    ∧ (getPlayerCountM ⟨[]⟩ "r1" 0 (some [("p1", some 0)]) 60).2 = 1 :=
  ⟨by decide, by simp [getPlayerCountM, countActive, List.filter]⟩

/-- C10 (amended): `join`, `leave`, `touch`, `update_position`,
`record_ball` and `_broadcast` always register the referenced room in the
local registry; `get_player_count` registers it only when the mirror
lookup fails or yields an empty member set, and returns with the registry
untouched when the mirror reports a non-empty member set; and no operation
ever removes a room from the registry. -/
theorem C10_room_registration :
    (∀ reg rid pid ws color now,
      rid ∈ keysOf (joinM reg rid pid ws color now).1.rooms)
    ∧ (∀ reg rid pid, rid ∈ keysOf (leaveM reg rid pid).1.rooms)
    ∧ (∀ reg rid pid now, rid ∈ keysOf (touchM reg rid pid now).1.rooms)
    ∧ (∀ reg rid pid x y now,
        rid ∈ keysOf (updatePositionM reg rid pid x y now).1.rooms)
    ∧ (∀ reg rid x y vx vy ts,
        rid ∈ keysOf (recordBallM reg rid x y vx vy ts).1.rooms)
    ∧ (∀ reg rid, rid ∈ keysOf (broadcastM reg rid).rooms)
    ∧ (∀ reg rid now kt,
        rid ∈ keysOf (getPlayerCountM reg rid now none kt).1.rooms)
    ∧ (∀ reg rid now kt,
        rid ∈ keysOf (getPlayerCountM reg rid now (some []) kt).1.rooms)
    ∧ (∀ reg rid now kt ms, ms.isEmpty = false →
        (getPlayerCountM reg rid now (some ms) kt).1 = reg)
    ∧ (∀ reg rid pid ws color now a, a ∈ keysOf reg.rooms →
        a ∈ keysOf (joinM reg rid pid ws color now).1.rooms)
    ∧ (∀ reg rid pid a, a ∈ keysOf reg.rooms →
        a ∈ keysOf (leaveM reg rid pid).1.rooms)
    ∧ (∀ reg rid pid now a, a ∈ keysOf reg.rooms →
        a ∈ keysOf (touchM reg rid pid now).1.rooms)
    ∧ (∀ reg rid pid x y now a, a ∈ keysOf reg.rooms →
        a ∈ keysOf (updatePositionM reg rid pid x y now).1.rooms)
    ∧ (∀ reg rid x y vx vy ts a, a ∈ keysOf reg.rooms →
        a ∈ keysOf (recordBallM reg rid x y vx vy ts).1.rooms)
    ∧ (∀ reg rid a, a ∈ keysOf reg.rooms →
        a ∈ keysOf (broadcastM reg rid).rooms)
    ∧ (∀ reg rid now mm kt a, a ∈ keysOf reg.rooms →
        a ∈ keysOf (getPlayerCountM reg rid now mm kt).1.rooms) := by
  refine ⟨fun reg rid pid ws color now => mem_keysOf_putRoom_self _ rid _,
         fun reg rid pid => mem_keysOf_putRoom_self _ rid _,
         fun reg rid pid now => mem_keysOf_putRoom_self _ rid _,
         fun reg rid pid x y now => mem_keysOf_putRoom_self _ rid _,
         fun reg rid x y vx vy ts => mem_keysOf_putRoom_self _ rid _,
         fun reg rid => ?_,
         fun reg rid now kt => mem_keysOf_local_self reg rid,
         fun reg rid now kt => mem_keysOf_local_self reg rid,
         fun reg rid now kt ms hms => by simp [getPlayerCountM, hms],
         fun reg rid pid ws color now a ha =>
           mem_keysOf_putRoom_mono _ rid _ a (mem_keysOf_ensure_mono reg rid a ha),
         fun reg rid pid a ha =>
           mem_keysOf_putRoom_mono _ rid _ a (mem_keysOf_ensure_mono reg rid a ha),
         fun reg rid pid now a ha =>
           mem_keysOf_putRoom_mono _ rid _ a (mem_keysOf_ensure_mono reg rid a ha),
         fun reg rid pid x y now a ha =>
           mem_keysOf_putRoom_mono _ rid _ a (mem_keysOf_ensure_mono reg rid a ha),
         fun reg rid x y vx vy ts a ha =>
           mem_keysOf_putRoom_mono _ rid _ a (mem_keysOf_ensure_mono reg rid a ha),
         fun reg rid a ha => mem_keysOf_ensure_mono reg rid a ha,
         fun reg rid now mm kt a ha => ?_⟩
  · exact mem_keysOf_ensure_self reg rid
  · cases mm with
    | none => exact mem_keysOf_local_mono reg rid a ha
    | some ms =>
      by_cases hms : ms.isEmpty
      · simp only [getPlayerCountM, hms, if_pos]
        exact mem_keysOf_local_mono reg rid a ha
      · simpa [getPlayerCountM, hms] using ha

/-- Witness for C10 (amended): a `touch` on a never-seen room id registers
it, and a `leave` on one room keeps the other registered. -/
theorem C10_room_registration_witness :
    "r1" ∈ keysOf (touchM ⟨[]⟩ "r1" "p" 0).1.rooms
    ∧ "r0" ∈ keysOf (leaveM ⟨[("r0", initRoom)]⟩ "r1" "p").1.rooms :=
  ⟨C10_room_registration.2.2.1 ⟨[]⟩ "r1" "p" 0,
   C10_room_registration.2.2.2.2.2.2.2.2.2.2.1
     ⟨[("r0", initRoom)]⟩ "r1" "p" "r0" (by decide)⟩

/-- C6: a connection presenting no bearer credential (no `Authorization`
header and no `token` query parameter) receives exactly one
`{type: auth, message: "false"}` frame, then the channel is closed with the
distinct auth-failure close code 4401, and `manager.join` — the only place
the `join` event is broadcast from — is never invoked for it; moreover a
well-formed bearer header takes priority over any query parameter. -/
theorem C6_no_credential (decode : String → Option ℕ) (joinOk : Bool)
    (a : String) (q : Option String) (ha : a ≠ "")
    (hb : lowerBearerPrefix a = true) :
    gatewaySession none none decode joinOk
      = [GwAction.sendAuthFalse, GwAction.close 4401]
    ∧ (∀ uid, GwAction.joinCall uid ∉ gatewaySession none none decode joinOk)
    ∧ extractToken (some a) q
        = some (String.mk (stripChars (a.toList.drop 7))) := by
  refine ⟨rfl, fun uid h => ?_, ?_⟩
  · simp [gatewaySession, extractToken] at h
  · simp [extractToken, ha, hb]

/-- Witness for C6: a credential-free session closes with 4401 after the
single auth frame, and a concrete bearer header wins over the query. -/
theorem C6_no_credential_witness :
    gatewaySession none none (fun _ => some 7) true
      = [GwAction.sendAuthFalse, GwAction.close 4401]
    ∧ GwAction.joinCall 7 ∉ gatewaySession none none (fun _ => some 7) true
    ∧ extractToken (some "Bearer tok") (some "other")
        = some (String.mk (stripChars ("Bearer tok".toList.drop 7))) :=
  ⟨(C6_no_credential (fun _ => some 7) true "Bearer tok" (some "other")
      (by decide) (by decide)).1,
   (C6_no_credential (fun _ => some 7) true "Bearer tok" (some "other")
      (by decide) (by decide)).2.1 7,
   (C6_no_credential (fun _ => some 7) true "Bearer tok" (some "other")
      (by decide) (by decide)).2.2⟩

/-! ## Ball-damping lemmas for C3 -/

theorem speed_fst (c : ℝ) (hc : 0 ≤ c) : speed (c, 0) = c := by
  have h : ((c, (0:ℝ)).1) ^ 2 + ((c, (0:ℝ)).2) ^ 2 = c ^ 2 := by norm_num
  rw [speed, h, Real.sqrt_sq hc]

/-- C3 counterexample: take constant input velocity (1, 0) and the
strictly increasing timestamps 0, 10, 11 (so dt = 10 at the second call
and dt = 1 > 0 at the third). The claim demands the stored speed to
strictly decrease from the second call to the third; instead it strictly
increases, because each call scales the fresh input velocity only by its
own call's `exp(-damping * dt)`. -/
theorem C3_counterexample :
    speed (recordBallVelocity (some 0) 10 1 0)
      < speed (recordBallVelocity (some 10) 11 1 0) := by
  have h10 : recordBallVelocity (some 0) 10 1 0
      = (Real.exp (-ballDamping * 10), 0) := by
    simp only [recordBallVelocity]
    norm_num
  have h1 : recordBallVelocity (some 10) 11 1 0
      = (Real.exp (-ballDamping * 1), 0) := by
    simp only [recordBallVelocity]
    norm_num
  rw [h10, h1, speed_fst _ (Real.exp_nonneg _), speed_fst _ (Real.exp_nonneg _)]
  apply Real.exp_lt_exp.mpr
  simp only [ballDamping]
  norm_num

/-- C3 (amended): each `record_ball` call stores the input velocity scaled
by `factor = exp(-damping * max 0 (now - prev_ts))` with damping 3/100
(= 0.03); when `dt > 0` the stored speed is strictly smaller than the
input speed (for a nonzero input velocity), and when `dt ≤ 0` — or on the
first sample — the velocity is stored unchanged (factor 1). The stored
speed need not decrease from one call to the next, since each call rescales
the fresh input by its own dt only. -/
theorem C3_ball_decay (prev ts vx vy : ℝ) :
    recordBallVelocity (some prev) ts vx vy
      = (vx * Real.exp (-ballDamping * max 0 (ts - prev)),
         vy * Real.exp (-ballDamping * max 0 (ts - prev)))
    ∧ (0 < ts - prev → (vx, vy) ≠ ((0:ℝ), (0:ℝ)) →
        speed (recordBallVelocity (some prev) ts vx vy) < speed (vx, vy))
    ∧ (ts - prev ≤ 0 → recordBallVelocity (some prev) ts vx vy = (vx, vy))
    ∧ recordBallVelocity none ts vx vy = (vx, vy) := by
  refine ⟨?_, fun hdt hv => ?_, fun hdt => ?_, by simp [recordBallVelocity]⟩
  · by_cases hdt : 0 < ts - prev
    · simp only [recordBallVelocity, if_pos hdt]
      rw [max_eq_right hdt.le]
    · simp only [recordBallVelocity, if_neg hdt]
      push_neg at hdt
      rw [max_eq_left hdt]
      simp
  · simp only [recordBallVelocity, if_pos hdt]
    have hf0 : 0 < Real.exp (-ballDamping * (ts - prev)) := Real.exp_pos _
    have hf1 : Real.exp (-ballDamping * (ts - prev)) < 1 := by
      have hb : (0:ℝ) < ballDamping := by norm_num [ballDamping]
      have hneg : -ballDamping * (ts - prev) < 0 := by nlinarith
      calc Real.exp (-ballDamping * (ts - prev))
          < Real.exp 0 := Real.exp_lt_exp.mpr hneg
        _ = 1 := Real.exp_zero
    have hor : vx ≠ 0 ∨ vy ≠ 0 := by
      by_contra hcon
      push_neg at hcon
      exact hv (by rw [hcon.1, hcon.2])
    have hS : 0 < vx ^ 2 + vy ^ 2 := by
      rcases hor with hx | hy
      · nlinarith [lt_of_le_of_ne (sq_nonneg vx) (Ne.symm (pow_ne_zero 2 hx)),
                   sq_nonneg vy]
      · nlinarith [lt_of_le_of_ne (sq_nonneg vy) (Ne.symm (pow_ne_zero 2 hy)),
                   sq_nonneg vx]
    have hsp : speed (vx * Real.exp (-ballDamping * (ts - prev)),
        vy * Real.exp (-ballDamping * (ts - prev)))
        = Real.exp (-ballDamping * (ts - prev)) * speed (vx, vy) := by
      simp only [speed]
      have hring : (vx * Real.exp (-ballDamping * (ts - prev))) ^ 2
          + (vy * Real.exp (-ballDamping * (ts - prev))) ^ 2
          = Real.exp (-ballDamping * (ts - prev)) ^ 2 * (vx ^ 2 + vy ^ 2) := by
        ring
      rw [hring, Real.sqrt_mul (sq_nonneg _), Real.sqrt_sq hf0.le]
    rw [hsp]
    have hspos : 0 < speed (vx, vy) := by
      rw [speed]
      exact Real.sqrt_pos.mpr hS
    exact mul_lt_of_lt_one_left hspos hf1
  · simp only [recordBallVelocity, if_neg (not_lt.mpr hdt)]
    simp

/-- Witness for C3 (amended): with dt = 1 > 0 and input velocity (1, 0),
the stored speed is strictly below the input speed. -/
theorem C3_ball_decay_witness :
    speed (recordBallVelocity (some 0) 1 1 0) < speed (1, 0) :=
  (C3_ball_decay 0 1 1 0).2.1 (by simp) (by simp)

end GameBackend
